import Mathlib

/-!
Shallow embedding of the dedup + cache-aside sentiment pipeline of the
Sentiment-Analysis-Google-Scraper repository.

Modelling conventions:
* Python floats are modelled as rationals; integer ratings as `Int`.
* Python dicts returned by the two analysis paths are modelled by one
  structure `SentimentResult` whose keys that appear in only one path are
  `Option`-valued (`none` models an absent key).
* Wall-clock reads (`datetime.now()`) are explicit parameters: an elapsed
  duration in milliseconds and an ISO timestamp string.
* The remote model call (client configuration, network call, code-fence
  stripping, JSON parsing, field access) is abstracted into a single
  `Except String ModelJson` input: `Except.error msg` models any exception
  raised inside the `try` block of `analyze_with_github`, carrying the
  Python `str(e)` message.
-/

/-- Front-match test on character lists: does the first list occur at the
head of the second (model of a fixed-offset comparison used by the
substring test)? -/
def charsAtFront : List Char → List Char → Bool
  | [], _ => true
  | _ :: _, [] => false
  | a :: as, b :: bs => a == b && charsAtFront as bs

/-- Substring occurrence on character lists, scanning every suffix. -/
def charsHasSub : List Char → List Char → Bool
  | [], needle => needle.isEmpty
  | h :: t, needle => charsAtFront needle (h :: t) || charsHasSub t needle

/-- Model of the Python membership test `needle in text` on strings. -/
def pyIn (needle text : String) : Bool :=
  charsHasSub text.data needle.data

/-- Model of Python `str.lower()` (character-wise lowering, faithful on
the ASCII texts and keywords involved). -/
def pyLower (s : String) : String :=
  ⟨s.data.map Char.toLower⟩

/-- Model of Python `str.strip()`: remove leading and trailing
whitespace. -/
def pyStrip (s : String) : String :=
  ⟨((s.data.dropWhile Char.isWhitespace).reverse.dropWhile Char.isWhitespace).reverse⟩

/-- Accumulator-style splitter behind `pyWords`: `cur` holds the current
word reversed. -/
def pyWordsGo : List Char → List Char → List (List Char)
  | cur, [] => if cur.isEmpty then [] else [cur.reverse]
  | cur, c :: t =>
    if c.isWhitespace then
      if cur.isEmpty then pyWordsGo [] t else cur.reverse :: pyWordsGo [] t
    else pyWordsGo (c :: cur) t

/-- Model of Python `str.split()` with no separator: split on whitespace
runs, discarding empty segments. -/
def pyWords (s : List Char) : List (List Char) :=
  pyWordsGo [] s

/-- Join character-list words with single spaces, model of
`" ".join(words)`. -/
def joinSpace : List (List Char) → List Char
  | [] => []
  | [w] => w
  | w :: ws => w ++ ' ' :: joinSpace ws

/-- Left-to-right non-overlapping replacement behind `pyReplace`; the
first argument counts characters still to skip after an emitted
replacement. -/
def replaceSkip (pat rep : List Char) : ℕ → List Char → List Char
  | _, [] => []
  | k + 1, _ :: t => replaceSkip pat rep k t
  | 0, h :: t =>
    if !pat.isEmpty && charsAtFront pat (h :: t) then
      rep ++ replaceSkip pat rep (pat.length - 1) t
    else h :: replaceSkip pat rep 0 t

/-- Model of Python `str.replace(pat, rep)` (all occurrences,
left-to-right, non-overlapping; faithful for the non-empty patterns the
code uses). -/
def pyReplace (s pat rep : String) : String :=
  ⟨replaceSkip pat.data rep.data 0 s.data⟩

/-- Round a rational to the nearest integer, ties to the even integer
(model of Python round-half-even). -/
def roundHalfEven (q : ℚ) : ℤ :=
  let f : ℤ := Int.floor q
  let frac : ℚ := q - (f : ℚ)
  if frac < 1/2 then f
  else if 1/2 < frac then f + 1
  else if f % 2 = 0 then f else f + 1

/-- Model of Python `round(x, 2)`. -/
def round2 (q : ℚ) : ℚ :=
  ((roundHalfEven (q * 100) : ℤ) : ℚ) / 100

/-- Two-decimal rendering of a rational, model of the Python format
specifier `:.2f` used in the fallback reason strings. -/
def fmt2 (q : ℚ) : String :=
  let n : ℤ := roundHalfEven (q * 100)
  let a : ℕ := n.natAbs
  let frac : ℕ := a % 100
  let fracStr := if frac < 10 then "0" ++ toString frac else toString frac
  (if n < 0 then "-" else "") ++ toString (a / 100) ++ "." ++ fracStr

/-- Result dictionary of the Sentiment Engine (both paths), from
src/service/SentimentAnalyzer.py. Keys present in only one of the two
paths are Option-valued; `from_cache` and `saved_to_db` are attached
later by the batch orchestrator. -/
structure SentimentResult where
  id : Option String
  review_text : String
  rating : ℤ
  reviewer_name : Option String
  review_at : Option String
  sentiment : String
  sentiment_score : ℚ
  themes : List String
  analysis_reasons : List String
  ai_suggestions : List String
  processing_time_ms : ℚ
  timestamp : String
  source : String
  note : Option String
  is_google : Option Bool
  from_cache : Option Bool
  saved_to_db : Option Bool
deriving DecidableEq

/-- Parsed JSON object expected from the remote model: the five required
fields accessed by `analyze_with_github`. -/
structure ModelJson where
  sentiment : String
  sentiment_score : ℚ
  themes : List String
  analysis_reasons : List String
  ai_suggestions : List String
deriving DecidableEq

/-- Strong positive keywords of the fallback lexicon. -/
def POS_STRONG : List String :=
  ["luar biasa", "sangat bagus", "excellent", "perfect", "terbaik", "sempurna", "istimewa"]

/-- Medium positive keywords of the fallback lexicon. -/
def POS_MEDIUM : List String :=
  ["bagus", "baik", "enak", "puas", "senang", "recommended", "mantap", "ramah", "cepat", "bersih", "nyaman"]

/-- Weak positive keywords of the fallback lexicon. -/
def POS_WEAK : List String :=
  ["lumayan", "cukup", "ok", "oke"]

/-- Strong negative keywords of the fallback lexicon. -/
def NEG_STRONG : List String :=
  ["sangat buruk", "terrible", "parah banget", "mengecewakan sekali", "worst"]

/-- Medium negative keywords of the fallback lexicon. -/
def NEG_MEDIUM : List String :=
  ["buruk", "jelek", "kecewa", "lambat", "lama", "mahal", "kotor", "tidak enak", "kurang", "rusak"]

/-- Weak negative keywords of the fallback lexicon. -/
def NEG_WEAK : List String :=
  ["tidak", "kurang", "biasa aja"]

/-- Theme-name to keyword-set mapping of the fallback path, in source
order. -/
def THEMES : List (String × List String) :=
  [("Kualitas Produk", ["makanan", "rasa", "enak", "menu", "produk", "lezat", "fresh"]),
   ("Kualitas Pelayanan", ["pelayanan", "service", "ramah", "staff", "karyawan", "sopan"]),
   ("Harga & Value", ["harga", "mahal", "murah", "value", "terjangkau"]),
   ("Kecepatan Layanan", ["cepat", "lama", "tunggu", "antri", "lambat"]),
   ("Kebersihan", ["bersih", "kotor", "higienis", "rapi"]),
   ("Suasana", ["suasana", "tempat", "nyaman", "lokasi", "atmosfer"])]

/-- Number of keywords of a list present in the text (presence test per
keyword, matching the generator-sum over `if w in text`). -/
def presenceCount (kws : List String) (text : String) : ℕ :=
  (kws.filter (fun w => pyIn w text)).length

/-- Positive lexicon score of a lower-cased text: weighted presence sum
divided by 5, capped at 1. -/
def pos_score_of (text : String) : ℚ :=
  min (((2 : ℚ) * presenceCount POS_STRONG text + (1 : ℚ) * presenceCount POS_MEDIUM text
      + (3/10 : ℚ) * presenceCount POS_WEAK text) / 5) 1

/-- Negative lexicon score of a lower-cased text: weighted presence sum
divided by 5, capped at 1. -/
def neg_score_of (text : String) : ℚ :=
  min (((2 : ℚ) * presenceCount NEG_STRONG text + (1 : ℚ) * presenceCount NEG_MEDIUM text
      + (3/10 : ℚ) * presenceCount NEG_WEAK text) / 5) 1

/-- Combined text-and-rating score of the fallback path (not clamped):
0.7 times the lexicon difference plus 0.3 times the centered rating. -/
def final_score_of (review : String) (rating : ℤ) : ℚ :=
  (pos_score_of (pyLower review) - neg_score_of (pyLower review)) * (7/10)
    + ((rating : ℚ) - 3) / 2 * (3/10)

/-- Matched themes of a lower-cased text, with the single default theme
when nothing matches. -/
def themes_of (text : String) : List String :=
  let ts := (THEMES.filter (fun p => p.2.any (fun kw => pyIn kw text))).map Prod.fst
  if ts = [] then ["Pengalaman Umum"] else ts

/-- Rule-based fallback of src/service/SentimentAnalyzer.py
(`fallback_analysis`). The two trailing arguments model the wall clock:
the elapsed milliseconds between the two `datetime.now()` reads and the
final ISO timestamp. -/
def fallback_analysis (review : String) (rating : ℤ) (review_id : Option String)
    (error_msg : String) (elapsed_ms : ℚ) (now_iso : String) : SentimentResult :=
  let text := pyLower review
  let pos_score := pos_score_of text
  let neg_score := neg_score_of text
  let final_score := (pos_score - neg_score) * (7/10) + ((rating : ℚ) - 3) / 2 * (3/10)
  let sentiment : String :=
    if final_score > 1/5 then "Positive"
    else if final_score < -(1/5) then "Negative"
    else "Neutral"
  let themes := themes_of text
  let reasons : List String :=
    if sentiment = "Positive" then
      ["Review menunjukkan apresiasi tinggi (positif: " ++ fmt2 pos_score ++ ")"]
        ++ (if 4 ≤ rating then ["Rating " ++ toString rating ++ "/5 mengkonfirmasi kepuasan pelanggan"] else [])
        ++ ["Tone keseluruhan positif dan merekomendasikan"]
    else if sentiment = "Negative" then
      ["Review mengandung keluhan signifikan (negatif: " ++ fmt2 neg_score ++ ")"]
        ++ (if rating ≤ 2 then ["Rating " ++ toString rating ++ "/5 menunjukkan ketidakpuasan serius"] else [])
        ++ ["Customer mengekspresikan kekecewaan yang perlu ditindaklanjuti"]
    else
      ["Review menunjukkan pengalaman standar",
       "Rating " ++ toString rating ++ "/5 berada di level netral",
       "Balance antara positif (" ++ fmt2 pos_score ++ ") dan negatif (" ++ fmt2 neg_score ++ ")"]
  let suggestions : List String :=
    if sentiment = "Negative" then
      ["ðŸš¨ URGENT: Follow-up customer untuk resolve issue"]
        ++ (if "Kualitas Pelayanan" ∈ themes then ["ðŸ“‹ Training dan evaluasi ulang tim service"] else [])
        ++ (if "Kecepatan Layanan" ∈ themes then ["âš¡ Optimasi workflow untuk reduce waiting time"] else [])
        ++ ["ðŸ’° Tawarkan kompensasi untuk restore trust"]
    else if sentiment = "Positive" then
      ["ðŸ’Œ Kirim thank you message untuk strengthen relationship",
       "ðŸ“¢ Jadikan testimoni untuk marketing",
       "â­ Maintain excellent quality yang sudah diberikan"]
    else
      ["ðŸ“Š Monitor trend untuk identify improvement",
       "ðŸŽ¯ Proactive engagement untuk understand expectations",
       "ðŸ’¡ Follow-up survey untuk detailed feedback"]
  { id := review_id
    review_text := review
    rating := rating
    reviewer_name := none
    review_at := none
    sentiment := sentiment
    sentiment_score := round2 (max (-1) (min 1 final_score))
    themes := themes.take 5
    analysis_reasons := reasons
    ai_suggestions := suggestions.take 5
    processing_time_ms := round2 elapsed_ms
    timestamp := now_iso
    source := "rule_based_fallback"
    note := some (if error_msg = "" then "Rule-based analysis" else "Fallback used: " ++ error_msg)
    is_google := none
    from_cache := none
    saved_to_db := none }

/-- Remote analysis path of src/service/SentimentAnalyzer.py
(`analyze_with_github`). `remote` abstracts the whole guarded region:
`Except.ok` carries the parsed model JSON, `Except.error` carries the
message of any raised exception (missing client, network error, malformed
JSON, missing field), which the handler forwards to the fallback. -/
def analyze_with_github (remote : Except String ModelJson) (review : String) (rating : ℤ)
    (review_id : Option String) (reviewer_name : String) (review_at : String)
    (is_google : Bool) (elapsed_ms : ℚ) (now_iso : String)
    (fb_elapsed_ms : ℚ) (fb_now_iso : String) : SentimentResult :=
  match remote with
  | Except.ok result =>
    { id := review_id
      review_text := review
      rating := rating
      reviewer_name := some reviewer_name
      review_at := some review_at
      sentiment := result.sentiment
      sentiment_score := result.sentiment_score
      themes := result.themes
      analysis_reasons := result.analysis_reasons
      ai_suggestions := result.ai_suggestions
      processing_time_ms := round2 elapsed_ms
      timestamp := now_iso
      source := "github_models"
      note := none
      is_google := some is_google
      from_cache := none
      saved_to_db := none }
  | Except.error e => fallback_analysis review rating review_id e fb_elapsed_ms fb_now_iso

/-- Raw review dictionary as received by the validator/cleaner, from
src/service/ReviewCleaner.py. Absent text keys are `none`; absent image
lists are the empty list (indistinguishable from present-but-empty under
Python truthiness). -/
structure RawReview where
  text : Option String
  reviewText : Option String
  reviewImageUrls : List String
  photos : List String
deriving DecidableEq

/-- Model of the Python expression
`review.get("text") or review.get("reviewText") or ""`: first truthy
(non-empty) string, else the empty string. -/
def orText (a b : Option String) : String :=
  if a.getD "" = "" then b.getD "" else a.getD ""

/-- Text cleaner of src/service/ReviewCleaner.py (`clean_review_text`):
collapse whitespace runs to single spaces, strip the two translation
artifacts, and trim. -/
def clean_review_text (text : String) : String :=
  if text = "" then ""
  else
    let collapsed : String := ⟨joinSpace (pyWords text.data)⟩
    let step1 := pyReplace collapsed "(Translated by Google)" ""
    let step2 := pyReplace step1 "(Original)" ""
    pyStrip step2

/-- Image-only test of src/service/ReviewCleaner.py (`has_only_images`):
image references present and trimmed text shorter than 3 characters. -/
def has_only_images (review : RawReview) : Bool :=
  let has_images := !review.reviewImageUrls.isEmpty || !review.photos.isEmpty
  let text := orText review.text review.reviewText
  let has_valid_text := decide (3 ≤ (pyStrip text).length)
  has_images && !has_valid_text

/-- Cleaning statistics of one validator batch
(`filter_reviews` stats dictionary). -/
structure CleanStats where
  total : ℕ
  valid : ℕ
  no_text : ℕ
  only_images : ℕ
  too_short : ℕ
deriving DecidableEq

/-- Return value of the validator/cleaner, plus the post-call state of
the caller's input list: `filter_reviews` assigns
`review["text"] = cleaned` on each kept record, so the records of
`inputAfter` reflect the in-place mutation the Python loop performs on
its argument. -/
structure FilterOutcome where
  valid_reviews : List RawReview
  stats : CleanStats
  inputAfter : List RawReview
deriving DecidableEq

/-- Loop body of `filter_reviews`, head-first so that output order is
input order; counts one category per review and threads the post-call
record states. -/
def filterGo : List RawReview → List RawReview × CleanStats × List RawReview
  | [] => ([], ⟨0, 0, 0, 0, 0⟩, [])
  | review :: rest =>
    let t := pyStrip (orText review.text review.reviewText)
    let (vs, s, after) := filterGo rest
    if has_only_images review then
      (vs, { s with only_images := s.only_images + 1 }, review :: after)
    else if t = "" then
      (vs, { s with no_text := s.no_text + 1 }, review :: after)
    else if t.length < 3 then
      (vs, { s with too_short := s.too_short + 1 }, review :: after)
    else
      let review2 := { review with text := some (clean_review_text t) }
      (review2 :: vs, { s with valid := s.valid + 1 }, review2 :: after)

/-- Validator/cleaner of src/service/ReviewCleaner.py
(`filter_reviews`): partition into valid and rejected with per-category
counts; `total` is the input length. -/
def filter_reviews (reviews : List RawReview) : FilterOutcome :=
  let (vs, s, after) := filterGo reviews
  { valid_reviews := vs
    stats := { s with total := reviews.length }
    inputAfter := after }

/-- Keep-test of the validator, per the branch order of the source loop:
not image-only, trimmed text non-empty and at least 3 characters. -/
def isKept (review : RawReview) : Bool :=
  let t := pyStrip (orText review.text review.reviewText)
  !has_only_images review && !(t == "") && !(t.length < 3)

/-- Post-mutation state of a kept record: its `text` key is overwritten
with the cleaned trimmed text. -/
def keptClean (review : RawReview) : RawReview :=
  { review with
    text := some (clean_review_text (pyStrip (orText review.text review.reviewText))) }

/-- Scraped review dictionary as consumed by the dedup index, from
src/service/ReviewScraper.py; absent keys are the empty string,
mirroring the source's `.get(key, "")` defaults. -/
structure ScrapedReview where
  reviewerId : String
  publishedAtDate : String
  text : String
deriving DecidableEq

/-- Dedup fingerprint of a review (`_get_review_id`):
reviewer id, publication date and a digest of the first 50 characters of
the text, joined with underscores. The Python builtin `hash` is an
unspecified process-stable digest, so it is a parameter `h`. -/
def get_review_id (h : String → ℤ) (review : ScrapedReview) : String :=
  review.reviewerId ++ "_" ++ review.publishedAtDate ++ "_"
    ++ toString (h ⟨review.text.data.take 50⟩)

/-- In-memory plus on-disk state of the scraper's dedup index:
`scraped` models `self.scraped_review_ids` (place id to fingerprint
set, sets as membership lists), `file` models the JSON cache file
content. -/
structure ScraperState where
  scraped : List (String × List String)
  file : List (String × List String)
deriving DecidableEq

/-- Dictionary lookup on the association-list model of
`self.scraped_review_ids`. -/
def lookupPlace (l : List (String × List String)) (place_id : String) :
    Option (List String) :=
  (l.find? (fun p => p.1 == place_id)).map (fun p => p.2)

/-- Dictionary assignment on the association-list model: replace the
binding when the key exists, append it otherwise. -/
def setPlace : List (String × List String) → String → List String →
    List (String × List String)
  | [], place_id, v => [(place_id, v)]
  | (k, w) :: t, place_id, v =>
    if k == place_id then (place_id, v) :: t else (k, w) :: setPlace t place_id v

/-- Dictionary deletion on the association-list model (`del`). -/
def removePlace (l : List (String × List String)) (place_id : String) :
    List (String × List String) :=
  l.filter (fun p => !(p.1 == place_id))

/-- Write of the whole in-memory index to the cache file
(`_save_cache`); serialization of sets to lists is the identity on this
model's representation. -/
def _save_cache (st : ScraperState) : ScraperState :=
  { st with file := st.scraped }

/-- Loop of `_filter_new_reviews`: keep a review and add its fingerprint
when the fingerprint is unseen, drop it otherwise; `acc` accumulates the
kept reviews in input order, `existing` is the mutable fingerprint
set. -/
def filterNewLoop (h : String → ℤ) (existing : List String)
    (acc : List ScrapedReview) :
    List ScrapedReview → List ScrapedReview × List String
  | [] => (acc, existing)
  | review :: rest =>
    let rid := get_review_id h review
    if rid ∈ existing then filterNewLoop h existing acc rest
    else filterNewLoop h (rid :: existing) (acc ++ [review]) rest

/-- Dedup filter of src/service/ReviewScraper.py
(`_filter_new_reviews`): ensure the place has a set, filter against and
extend that set, and store the extended set back in the in-memory index.
The cache file is not touched here — persistence happens in the
caller. -/
def _filter_new_reviews (h : String → ℤ) (st : ScraperState)
    (reviews : List ScrapedReview) (place_id : String) :
    List ScrapedReview × ScraperState :=
  let scraped :=
    if (lookupPlace st.scraped place_id).isSome then st.scraped
    else setPlace st.scraped place_id []
  let existing := (lookupPlace scraped place_id).getD []
  let (new_reviews, existing2) := filterNewLoop h existing [] reviews
  (new_reviews, { st with scraped := setPlace scraped place_id existing2 })

/-- Dedup-and-persist portion of `scrape_location` (lines 113-123): when
duplicate skipping is enabled and a place id is present, filter against
the index, count the duplicates, and save the cache file; otherwise pass
the reviews through untouched. -/
def scrapeDedupStep (h : String → ℤ) (st : ScraperState)
    (reviews : List ScrapedReview) (place_id : String)
    (skip_duplicates : Bool) :
    (List ScrapedReview × ℕ) × ScraperState :=
  if skip_duplicates ∧ place_id ≠ "" then
    let (new_reviews, st2) := _filter_new_reviews h st reviews place_id
    ((new_reviews, reviews.length - new_reviews.length), _save_cache st2)
  else ((reviews, 0), st)

/-- Per-place reset of src/service/ReviewScraper.py
(`reset_cache_for_location`): delete the place's set and save when the
place is present, report failure otherwise. -/
def reset_cache_for_location (st : ScraperState) (place_id : String) :
    Bool × ScraperState :=
  if (lookupPlace st.scraped place_id).isSome then
    (true, _save_cache { st with scraped := removePlace st.scraped place_id })
  else (false, st)

/-- Global reset of src/service/ReviewScraper.py (`reset_all_cache`). -/
def reset_all_cache (st : ScraperState) : ScraperState :=
  _save_cache { st with scraped := [] }

/-- Specification-shaped dedup filter, written from the spec's words
for the refinement comparison: for each review in order, keep it and
record its fingerprint when absent from the seen-set, drop it when
present (first occurrence wins inside one batch). -/
def filterNewSpecFn (h : String → ℤ) (seen : List String) :
    List ScrapedReview → List ScrapedReview
  | [] => []
  | review :: rest =>
    if get_review_id h review ∈ seen then filterNewSpecFn h seen rest
    else review :: filterNewSpecFn h (get_review_id h review :: seen) rest

/-- Analysis Store model: the `sentiment_analysis` table keyed by review
id, as read through `DatabaseManager.get_analysis`. -/
abbrev AnalysisDB := List (String × SentimentResult)

/-- Store read of src/service/DatabaseManager.py (`get_analysis`):
fetch the record stored under the id, if any. -/
def get_analysis (db : AnalysisDB) (review_id : String) : Option SentimentResult :=
  (db.find? (fun p => p.1 == review_id)).map (fun p => p.2)

/-- Cache-hit test of src/service/DatabaseManager.py (`is_analyzed`):
true exactly when a record is stored under the id and its stored
`review_text` equals the incoming text. -/
def is_analyzed (db : AnalysisDB) (review_id : String) (review_text : String) : Bool :=
  match get_analysis db review_id with
  | some existing => existing.review_text == review_text
  | none => false

/-- Incoming review of the batch endpoint body, from src/Sentiment.py
(`smart_batch_analyze`); absent keys are `none`. -/
structure BatchReview where
  id : Option String
  full_review : String
  rating : Option ℤ
  reviewer_name : Option String
  review_date : Option String
deriving DecidableEq

/-- Generated id for a review without one: `f"REV{idx+1:03d}"` with
zero-padding to three digits. -/
def defaultId (idx : ℕ) : String :=
  "REV" ++ (if idx + 1 < 10 then "00" ++ toString (idx + 1)
            else if idx + 1 < 100 then "0" ++ toString (idx + 1)
            else toString (idx + 1))

/-- Skip-list entry of the batch outcome. -/
structure SkipEntry where
  id : String
  reason : String
deriving DecidableEq

/-- Dispatch record appended to `reviews_to_analyze` for a review that
needs analysis. -/
structure ToAnalyze where
  review : String
  rating : ℤ
  id : String
  reviewer_name : Option String
  review_at : Option String
deriving DecidableEq

/-- Error-list entry of the batch outcome: keyed by completion index in
parallel mode, by review id in sequential mode. -/
inductive ErrorEntry where
  | byIndex (index : ℕ) (error : String)
  | byId (id : String) (error : String)
deriving DecidableEq

/-- Per-review decision of the partition loop of `smart_batch_analyze`:
at most one of the three components is produced — a cache-hit result
(stored record marked `from_cache`), its skip entry, or a dispatch
record for analysis. An empty-text review produces nothing. -/
def stepItem (db : AnalysisDB) (force_reanalyze : Bool) (idx : ℕ) (rev : BatchReview) :
    Option SentimentResult × Option SkipEntry × Option ToAnalyze :=
  let review_id := rev.id.getD (defaultId idx)
  let review_text := rev.full_review
  if review_text = "" then (none, none, none)
  else if !force_reanalyze && is_analyzed db review_id review_text then
    match get_analysis db review_id with
    | some existing =>
      (some { existing with from_cache := some true },
       some ⟨review_id, "already_analyzed"⟩, none)
    | none =>
      (none, none,
       some ⟨review_text, rev.rating.getD 3, review_id, rev.reviewer_name, rev.review_date⟩)
  else
    (none, none,
     some ⟨review_text, rev.rating.getD 3, review_id, rev.reviewer_name, rev.review_date⟩)

/-- Partition phase of `smart_batch_analyze` over the enumerated input:
collect cache-hit results, skip entries and the dispatch list, in input
order. -/
def partitionLoop (db : AnalysisDB) (force_reanalyze : Bool) :
    List (ℕ × BatchReview) →
    List SentimentResult × List SkipEntry × List ToAnalyze
  | [] => ([], [], [])
  | (idx, rev) :: rest =>
    let (r, s, t) := stepItem db force_reanalyze idx rev
    let (rs, sk, ta) := partitionLoop db force_reanalyze rest
    (r.toList ++ rs, s.toList ++ sk, t.toList ++ ta)

/-- Analysis phase of `smart_batch_analyze` over the dispatch list.
`eng` is the per-dispatch outcome oracle of the engine task at each
completion index (`Except.error` models an exception collected by
`asyncio.gather(..., return_exceptions=True)` or caught by the
sequential handler); `save` is the store upsert's reported success. A
success is tagged `saved_to_db` and `from_cache = false`; a failure
yields an error entry keyed by index (parallel) or id (sequential). -/
def analyzeLoop (eng : ℕ → Except String SentimentResult)
    (save : SentimentResult → Bool) (parallel : Bool) :
    ℕ → List ToAnalyze → List SentimentResult × List ErrorEntry
  | _, [] => ([], [])
  | i, cur :: rest =>
    let (rs, es) := analyzeLoop eng save parallel (i + 1) rest
    match eng i with
    | Except.error e =>
      (rs, (if parallel then ErrorEntry.byIndex i e else ErrorEntry.byId cur.id e) :: es)
    | Except.ok res =>
      ({ res with saved_to_db := some (save res), from_cache := some false } :: rs, es)

/-- Outcome dictionary of the batch endpoint (success case); the source
additionally replaces empty skip/error lists by `None`, which does not
affect the aggregates. -/
structure BatchOutcome where
  total_reviews : ℕ
  processed : ℕ
  newly_analyzed : ℕ
  from_cache : ℕ
  failed : ℕ
  results : List SentimentResult
  skipped : List SkipEntry
  errors : List ErrorEntry
deriving DecidableEq

/-- Batch orchestrator of src/Sentiment.py (`smart_batch_analyze`):
partition into cache hits and dispatches, run the analysis phase, and
assemble the aggregate outcome. -/
def smart_batch_analyze (db : AnalysisDB) (eng : ℕ → Except String SentimentResult)
    (save : SentimentResult → Bool) (reviews : List BatchReview)
    (parallel : Bool) (force_reanalyze : Bool) : BatchOutcome :=
  let (cached, skipped, to_analyze) := partitionLoop db force_reanalyze reviews.enum
  let (new_results, errors) := analyzeLoop eng save parallel 0 to_analyze
  let results := cached ++ new_results
  { total_reviews := reviews.length
    processed := results.length
    newly_analyzed := to_analyze.length
    from_cache := skipped.length
    failed := errors.length
    results := results
    skipped := skipped
    errors := errors }

/-- Number of dispatched analyses whose engine task succeeds, counting
from completion index `i`. -/
def engineOkCount (eng : ℕ → Except String SentimentResult) :
    ℕ → List ToAnalyze → ℕ
  | _, [] => 0
  | i, _ :: rest =>
    (match eng i with | Except.ok _ => 1 | Except.error _ => 0)
      + engineOkCount eng (i + 1) rest

/-- Number of dispatched analyses whose engine task fails, counting from
completion index `i`. -/
def engineErrCount (eng : ℕ → Except String SentimentResult) :
    ℕ → List ToAnalyze → ℕ
  | _, [] => 0
  | i, _ :: rest =>
    (match eng i with | Except.ok _ => 0 | Except.error _ => 1)
      + engineErrCount eng (i + 1) rest

lemma filterGo_counts (l : List RawReview) :
    (filterGo l).2.1.valid + (filterGo l).2.1.no_text + (filterGo l).2.1.only_images
      + (filterGo l).2.1.too_short = l.length
    ∧ (filterGo l).2.1.valid = (filterGo l).1.length := by
  induction l with
  | nil => simp [filterGo]
  | cons r rest ih =>
    rcases hfg : filterGo rest with ⟨vs, s, after⟩
    rw [hfg] at ih
    simp only [filterGo, hfg]
    split_ifs <;> simp_all <;> omega

lemma filterGo_closed (l : List RawReview) :
    (filterGo l).1 = l.filterMap (fun r => if isKept r then some (keptClean r) else none)
    ∧ (filterGo l).2.2 = l.map (fun r => if isKept r then keptClean r else r) := by
  induction l with
  | nil => simp [filterGo]
  | cons r rest ih =>
    rcases hfg : filterGo rest with ⟨vs, s, after⟩
    replace ih : vs = rest.filterMap (fun r => if isKept r then some (keptClean r) else none)
        ∧ after = rest.map (fun r => if isKept r then keptClean r else r) := by
      rw [hfg] at ih; simpa using ih
    simp only [filterGo, hfg]
    by_cases h1 : has_only_images r
    · have hk : isKept r = false := by simp [isKept, h1]
      simp [h1, hk, ih.1, ih.2]
    · by_cases h2 : pyStrip (orText r.text r.reviewText) = ""
      · have hk : isKept r = false := by simp [isKept, h2]
        simp [h1, h2, hk, ih.1, ih.2]
      · by_cases h3 : (pyStrip (orText r.text r.reviewText)).length < 3
        · have hk : isKept r = false := by simp [isKept, h3]
          simp [h1, h2, h3, hk, ih.1, ih.2]
        · have hk : isKept r = true := by simp [isKept, h1, h2, h3]
          simp [h1, h2, h3, hk, ih.1, ih.2, keptClean]

/-- C10: for every input list, the cleaning stats partition the input:
`total` equals the input length and equals
`valid + no_text + only_images + too_short`, and `valid` equals the
length of the returned `valid_reviews` list. -/
theorem claim_C10_stats_partition (reviews : List RawReview) :
    (filter_reviews reviews).stats.total = reviews.length
    ∧ (filter_reviews reviews).stats.total
        = (filter_reviews reviews).stats.valid + (filter_reviews reviews).stats.no_text
          + (filter_reviews reviews).stats.only_images + (filter_reviews reviews).stats.too_short
    ∧ (filter_reviews reviews).stats.valid = (filter_reviews reviews).valid_reviews.length := by
  have h := filterGo_counts reviews
  rcases hfg : filterGo reviews with ⟨vs, s, after⟩
  replace h : s.valid + s.no_text + s.only_images + s.too_short = reviews.length
      ∧ s.valid = vs.length := by
    rw [hfg] at h; simpa using h
  have e1 : filter_reviews reviews
      = ⟨vs, { s with total := reviews.length }, after⟩ := by
    simp [filter_reviews, hfg]
  rw [e1]
  exact ⟨rfl, by simp; omega, by simpa using h.2⟩

/-- C7 counterexample: `filter_reviews` is not side-effect-free — on a
valid review whose raw text contains collapsible whitespace and a
translation artifact, the input record has been mutated (its text key
rewritten to the cleaned text) after the call. -/
theorem claim_C7_counterexample :
    (filter_reviews [⟨some "  great   place!!  (Translated by Google)", none, [], []⟩]).inputAfter
      ≠ [⟨some "  great   place!!  (Translated by Google)", none, [], []⟩]
    ∧ (filter_reviews [⟨some "  great   place!!  (Translated by Google)", none, [], []⟩]).inputAfter
      = [⟨some "great place!!", none, [], []⟩] := by
  constructor
  · decide
  · decide

/-- C7 amended: `filter_reviews` keeps the valid records in input order
(it is a filterMap of its input), but it mutates its input in place:
after the call each kept record's text key holds the cleaned text, while
rejected records are unchanged. -/
theorem claim_C7_order_and_mutation (reviews : List RawReview) :
    (filter_reviews reviews).valid_reviews
        = reviews.filterMap (fun r => if isKept r then some (keptClean r) else none)
    ∧ (filter_reviews reviews).inputAfter
        = reviews.map (fun r => if isKept r then keptClean r else r) := by
  have h := filterGo_closed reviews
  rcases hfg : filterGo reviews with ⟨vs, s, after⟩
  rw [hfg] at h
  simp only [filter_reviews, hfg]
  exact ⟨h.1, h.2⟩

lemma lookupPlace_setPlace_self (l : List (String × List String)) (place_id : String)
    (v : List String) : lookupPlace (setPlace l place_id v) place_id = some v := by
  induction l with
  | nil => simp [setPlace, lookupPlace]
  | cons p t ih =>
    by_cases hk : p.1 = place_id
    · simp [setPlace, lookupPlace, hk]
    · have hk2 : (p.1 == place_id) = false := by simpa using hk
      simp only [setPlace]
      rw [if_neg (by simpa using hk)]
      simpa [lookupPlace, List.find?_cons, hk2] using ih

lemma lookupPlace_removePlace_self (l : List (String × List String)) (place_id : String) :
    lookupPlace (removePlace l place_id) place_id = none := by
  induction l with
  | nil => simp [removePlace, lookupPlace]
  | cons p t ih =>
    have hrm : removePlace (p :: t) place_id
        = if p.1 == place_id then removePlace t place_id
          else p :: removePlace t place_id := by
      by_cases hk : p.1 = place_id <;> simp [removePlace, hk]
    by_cases hk : p.1 = place_id
    · rw [hrm, if_pos (by simpa using hk)]
      exact ih
    · have hk2 : (p.1 == place_id) = false := by simpa using hk
      rw [hrm, hk2]
      simpa [lookupPlace, List.find?_cons, hk2, removePlace] using ih

lemma filterNewLoop_fst (h : String → ℤ) (revs : List ScrapedReview) :
    ∀ ex acc, (filterNewLoop h ex acc revs).1 = acc ++ filterNewSpecFn h ex revs := by
  induction revs with
  | nil => intro ex acc; simp [filterNewLoop, filterNewSpecFn]
  | cons r rest ih =>
    intro ex acc
    by_cases hm : get_review_id h r ∈ ex
    · simp [filterNewLoop, filterNewSpecFn, hm, ih]
    · simp [filterNewLoop, filterNewSpecFn, hm, ih]

lemma filterNewSpecFn_sublist (h : String → ℤ) (revs : List ScrapedReview) :
    ∀ seen, List.Sublist (filterNewSpecFn h seen revs) revs := by
  induction revs with
  | nil => intro seen; simp [filterNewSpecFn]
  | cons r rest ih =>
    intro seen
    by_cases hm : get_review_id h r ∈ seen
    · simpa [filterNewSpecFn, hm] using (ih seen).cons r
    · simpa [filterNewSpecFn, hm] using (ih (get_review_id h r :: seen)).cons₂ r

lemma subset_filterNewLoop_snd (h : String → ℤ) (revs : List ScrapedReview) :
    ∀ ex acc x, x ∈ ex → x ∈ (filterNewLoop h ex acc revs).2 := by
  induction revs with
  | nil => intro ex acc x hx; simpa [filterNewLoop] using hx
  | cons r rest ih =>
    intro ex acc x hx
    by_cases hm : get_review_id h r ∈ ex
    · simpa [filterNewLoop, hm] using ih ex acc x hx
    · simpa [filterNewLoop, hm] using ih _ _ x (List.mem_cons_of_mem _ hx)

lemma mem_filterNewLoop_snd (h : String → ℤ) (revs : List ScrapedReview) :
    ∀ ex acc r, r ∈ revs → get_review_id h r ∈ (filterNewLoop h ex acc revs).2 := by
  induction revs with
  | nil => intro ex acc r hr; simp at hr
  | cons q rest ih =>
    intro ex acc r hr
    rcases List.mem_cons.mp hr with hr | hr
    · subst hr
      by_cases hm : get_review_id h r ∈ ex
      · simpa [filterNewLoop, hm] using subset_filterNewLoop_snd h rest ex acc _ hm
      · simpa [filterNewLoop, hm] using
          subset_filterNewLoop_snd h rest _ _ _ (List.mem_cons_self _ _)
    · by_cases hm : get_review_id h q ∈ ex
      · simpa [filterNewLoop, hm] using ih ex acc r hr
      · simpa [filterNewLoop, hm] using ih _ _ r hr

lemma filterNewSpecFn_nil_of_mem (h : String → ℤ) (revs : List ScrapedReview) :
    ∀ seen, (∀ r ∈ revs, get_review_id h r ∈ seen) → filterNewSpecFn h seen revs = [] := by
  induction revs with
  | nil => intro seen _; simp [filterNewSpecFn]
  | cons r rest ih =>
    intro seen hall
    have hr : get_review_id h r ∈ seen := hall r (List.mem_cons_self _ _)
    simp only [filterNewSpecFn, if_pos hr]
    exact ih seen (fun q hq => hall q (List.mem_cons_of_mem _ hq))

lemma fnr_unfold (h : String → ℤ) (st : ScraperState) (reviews : List ScrapedReview)
    (place_id : String) :
    _filter_new_reviews h st reviews place_id
      = ((filterNewLoop h ((lookupPlace (if (lookupPlace st.scraped place_id).isSome
            then st.scraped else setPlace st.scraped place_id []) place_id).getD [])
            [] reviews).1,
         { st with scraped := (setPlace
            (if (lookupPlace st.scraped place_id).isSome then st.scraped
             else setPlace st.scraped place_id []) place_id
            (filterNewLoop h ((lookupPlace (if (lookupPlace st.scraped place_id).isSome
               then st.scraped else setPlace st.scraped place_id []) place_id).getD [])
               [] reviews).2) }) := rfl

lemma lookup_ensure (l : List (String × List String)) (place_id : String) :
    (lookupPlace (if (lookupPlace l place_id).isSome then l
        else setPlace l place_id []) place_id).getD []
      = (lookupPlace l place_id).getD [] := by
  cases hopt : lookupPlace l place_id with
  | some v => simp [hopt]
  | none => simp [hopt, lookupPlace_setPlace_self]

lemma fnr_fst (h : String → ℤ) (st : ScraperState) (reviews : List ScrapedReview)
    (place_id : String) :
    (_filter_new_reviews h st reviews place_id).1
      = filterNewSpecFn h ((lookupPlace st.scraped place_id).getD []) reviews := by
  rw [fnr_unfold, lookup_ensure]
  simpa using filterNewLoop_fst h reviews ((lookupPlace st.scraped place_id).getD []) []

lemma fnr_scraped (h : String → ℤ) (st : ScraperState) (reviews : List ScrapedReview)
    (place_id : String) :
    lookupPlace ((_filter_new_reviews h st reviews place_id).2).scraped place_id
      = some (filterNewLoop h ((lookupPlace st.scraped place_id).getD []) [] reviews).2 := by
  rw [fnr_unfold, lookup_ensure]
  exact lookupPlace_setPlace_self _ _ _

lemma fnr_file (h : String → ℤ) (st : ScraperState) (reviews : List ScrapedReview)
    (place_id : String) :
    ((_filter_new_reviews h st reviews place_id).2).file = st.file := by
  rw [fnr_unfold]

/-- C5: the dedup filter keeps exactly the reviews whose fingerprint is
not already in the place's set, first occurrence winning among
within-batch duplicates (it equals the specification-shaped filter over
the place's current set); the output is a sublist of the input, hence in
input order; filtering the same batch a second time against the updated
state returns the empty list; and after a per-place reset any review is
returned again. -/
theorem claim_C5_dedup_filter (h : String → ℤ) (st : ScraperState)
    (reviews : List ScrapedReview) (place_id : String) :
    (_filter_new_reviews h st reviews place_id).1
        = filterNewSpecFn h ((lookupPlace st.scraped place_id).getD []) reviews
    ∧ List.Sublist (_filter_new_reviews h st reviews place_id).1 reviews
    ∧ (_filter_new_reviews h ((_filter_new_reviews h st reviews place_id).2)
        reviews place_id).1 = []
    ∧ (∀ r : ScrapedReview,
        (_filter_new_reviews h
          ((reset_cache_for_location ((_filter_new_reviews h st reviews place_id).2)
            place_id).2)
          [r] place_id).1 = [r]) := by
  refine ⟨fnr_fst h st reviews place_id, ?_, ?_, ?_⟩
  · rw [fnr_fst]
    exact filterNewSpecFn_sublist h reviews _
  · rw [fnr_fst, fnr_scraped]
    exact filterNewSpecFn_nil_of_mem h reviews _
      (fun r hr => mem_filterNewLoop_snd h reviews _ [] r hr)
  · intro r
    have hsome := fnr_scraped h st reviews place_id
    have hrst : (reset_cache_for_location ((_filter_new_reviews h st reviews place_id).2)
        place_id).2.scraped
        = removePlace ((_filter_new_reviews h st reviews place_id).2).scraped place_id := by
      simp [reset_cache_for_location, hsome, _save_cache]
    rw [fnr_fst, hrst, lookupPlace_removePlace_self]
    simp [filterNewSpecFn]

/-- C9 counterexample: `_filter_new_reviews` mutates the in-memory dedup
index and returns without serializing it — starting from an empty index
and an empty cache file, after the call the in-memory index holds the
new fingerprint while the file contents are unchanged (still empty), so
the mutation is not written to durable storage before the mutating
operation's call returns. -/
theorem claim_C9_counterexample :
    ((_filter_new_reviews (fun _ => (0 : ℤ)) ⟨[], []⟩ [⟨"u", "d", "hello"⟩] "P").2).scraped
      ≠ ((_filter_new_reviews (fun _ => (0 : ℤ)) ⟨[], []⟩ [⟨"u", "d", "hello"⟩] "P").2).file
    ∧ ((_filter_new_reviews (fun _ => (0 : ℤ)) ⟨[], []⟩ [⟨"u", "d", "hello"⟩] "P").2).file
      = [] := by
  exact ⟨by decide, by decide⟩

/-- C9 amended: persistence is performed by the callers of the mutating
filter, not by the filter itself: `_filter_new_reviews` leaves the cache
file untouched, while the dedup portion of `scrape_location` saves the
whole index right after filtering (file equals in-memory index on
return), a successful per-place reset saves before returning, a failed
per-place reset does not change the state at all, and `reset_all_cache`
always saves before returning. -/
theorem claim_C9_persistence_discipline (h : String → ℤ) (st : ScraperState)
    (reviews : List ScrapedReview) (place_id : String) :
    ((_filter_new_reviews h st reviews place_id).2).file = st.file
    ∧ (place_id ≠ "" →
        ((scrapeDedupStep h st reviews place_id true).2).file
          = ((scrapeDedupStep h st reviews place_id true).2).scraped)
    ∧ ((reset_cache_for_location st place_id).1 = true →
        ((reset_cache_for_location st place_id).2).file
          = ((reset_cache_for_location st place_id).2).scraped)
    ∧ ((reset_cache_for_location st place_id).1 = false →
        (reset_cache_for_location st place_id).2 = st)
    ∧ (reset_all_cache st).file = (reset_all_cache st).scraped := by
  refine ⟨fnr_file h st reviews place_id, ?_, ?_, ?_, rfl⟩
  · intro hp
    simp [scrapeDedupStep, hp, _save_cache]
  · intro htrue
    by_cases hs : (lookupPlace st.scraped place_id).isSome
    · simp [reset_cache_for_location, hs, _save_cache]
    · simp [reset_cache_for_location, hs] at htrue
  · intro hfalse
    by_cases hs : (lookupPlace st.scraped place_id).isSome
    · simp [reset_cache_for_location, hs] at hfalse
    · simp [reset_cache_for_location, hs]

/-- C9 witness: the persistence discipline at a concrete state — a
non-empty place id makes the scrape step leave file and memory in sync,
and a reset of a present place does the same. -/
theorem claim_C9_witness :
    ("P" : String) ≠ ""
    ∧ (reset_cache_for_location ⟨[("P", ["f1"])], [("P", ["f1"])]⟩ "P").1 = true
    ∧ ((scrapeDedupStep (fun _ => (0 : ℤ)) ⟨[("P", ["f1"])], [("P", ["f1"])]⟩
        [⟨"u", "d", "t"⟩] "P" true).2).file
      = ((scrapeDedupStep (fun _ => (0 : ℤ)) ⟨[("P", ["f1"])], [("P", ["f1"])]⟩
        [⟨"u", "d", "t"⟩] "P" true).2).scraped
    ∧ ((reset_cache_for_location ⟨[("P", ["f1"])], [("P", ["f1"])]⟩ "P").2).file
      = ((reset_cache_for_location ⟨[("P", ["f1"])], [("P", ["f1"])]⟩ "P").2).scraped := by
  refine ⟨by decide, by decide, ?_, ?_⟩
  · exact (claim_C9_persistence_discipline (fun _ => (0 : ℤ))
      ⟨[("P", ["f1"])], [("P", ["f1"])]⟩ [⟨"u", "d", "t"⟩] "P").2.1 (by decide)
  · exact (claim_C9_persistence_discipline (fun _ => (0 : ℤ))
      ⟨[("P", ["f1"])], [("P", ["f1"])]⟩ [⟨"u", "d", "t"⟩] "P").2.2.1 (by decide)

lemma floor_add_one_le_ceil_of_lt (q : ℚ) (h : (Int.floor q : ℚ) < q) :
    Int.floor q + 1 ≤ Int.ceil q := by
  have h2 : ((Int.floor q : ℚ)) < (Int.ceil q : ℚ) := lt_of_lt_of_le h (Int.le_ceil q)
  have h3 : Int.floor q < Int.ceil q := by exact_mod_cast h2
  omega

lemma roundHalfEven_bounds (q : ℚ) :
    Int.floor q ≤ roundHalfEven q ∧ roundHalfEven q ≤ Int.ceil q := by
  constructor
  · simp only [roundHalfEven]
    split_ifs <;> omega
  · simp only [roundHalfEven]
    split_ifs with h1 h2 h3
    · exact Int.floor_le_ceil q
    · have hlt : (Int.floor q : ℚ) < q := by linarith
      have := floor_add_one_le_ceil_of_lt q hlt
      omega
    · exact Int.floor_le_ceil q
    · have hfr : q - (Int.floor q : ℚ) = 1/2 := le_antisymm (not_lt.mp h2) (not_lt.mp h1)
      have hlt : (Int.floor q : ℚ) < q := by linarith
      have := floor_add_one_le_ceil_of_lt q hlt
      omega

lemma round2_bounds (q : ℚ) (hlo : -1 ≤ q) (hhi : q ≤ 1) :
    -1 ≤ round2 q ∧ round2 q ≤ 1 := by
  have hb := roundHalfEven_bounds (q * 100)
  have hfl : (-100 : ℤ) ≤ Int.floor (q * 100) := by
    rw [Int.le_floor]; push_cast; linarith
  have hcl : Int.ceil (q * 100) ≤ (100 : ℤ) := by
    rw [Int.ceil_le]; push_cast; linarith
  have h1 : (-100 : ℤ) ≤ roundHalfEven (q * 100) := le_trans hfl hb.1
  have h2 : roundHalfEven (q * 100) ≤ 100 := le_trans hb.2 hcl
  have c1 : ((-100 : ℤ) : ℚ) ≤ ((roundHalfEven (q * 100) : ℤ) : ℚ) := by exact_mod_cast h1
  have c2 : ((roundHalfEven (q * 100) : ℤ) : ℚ) ≤ ((100 : ℤ) : ℚ) := by exact_mod_cast h2
  constructor
  · rw [round2, le_div_iff (by norm_num : (0 : ℚ) < 100)]
    push_cast at c1 ⊢
    linarith
  · rw [round2, div_le_one (by norm_num : (0 : ℚ) < 100)]
    push_cast at c2 ⊢
    linarith

/-- C3: for every review text and every integer rating, the fallback's
returned `sentiment_score` lies in the interval from -1 to 1, and the
sentiment label is exactly the threshold classification of the raw
combined score — strictly above 0.2 is Positive, strictly below -0.2 is
Negative, everything else (the boundaries included) is Neutral. -/
theorem claim_C3_score_bounds_and_thresholds (review : String) (rating : ℤ)
    (review_id : Option String) (error_msg : String) (elapsed_ms : ℚ) (now_iso : String) :
    (-1 ≤ (fallback_analysis review rating review_id error_msg elapsed_ms now_iso).sentiment_score
      ∧ (fallback_analysis review rating review_id error_msg elapsed_ms now_iso).sentiment_score ≤ 1)
    ∧ (fallback_analysis review rating review_id error_msg elapsed_ms now_iso).sentiment
        = (if final_score_of review rating > 1/5 then "Positive"
           else if final_score_of review rating < -(1/5) then "Negative"
           else "Neutral") := by
  constructor
  · have hs : (fallback_analysis review rating review_id error_msg elapsed_ms now_iso).sentiment_score
        = round2 (max (-1) (min 1 (final_score_of review rating))) := rfl
    rw [hs]
    exact round2_bounds _ (le_max_left _ _)
      (max_le (by norm_num) (min_le_left _ _))
  · rfl

lemma fallback_reasons_len (review : String) (rating : ℤ) (review_id : Option String)
    (error_msg : String) (e : ℚ) (n : String) :
    (fallback_analysis review rating review_id error_msg e n).analysis_reasons.length
      = (if final_score_of review rating > 1/5 then (if 4 ≤ rating then 3 else 2)
         else if final_score_of review rating < -(1/5) then (if rating ≤ 2 then 3 else 2)
         else 3) := by
  simp only [fallback_analysis, final_score_of]
  by_cases hp : (pos_score_of (pyLower review) - neg_score_of (pyLower review)) * (7/10)
      + ((rating : ℚ) - 3) / 2 * (3/10) > 1/5
  · simp only [if_pos hp]
    by_cases hr : (4 : ℤ) ≤ rating <;> simp [hr]
  · simp only [if_neg hp]
    by_cases hn : (pos_score_of (pyLower review) - neg_score_of (pyLower review)) * (7/10)
        + ((rating : ℚ) - 3) / 2 * (3/10) < -(1/5)
    · simp only [if_pos hn]
      by_cases hr : rating ≤ (2 : ℤ) <;> simp [hr]
    · simp only [if_neg hn]
      simp

lemma fallback_sentiment_eq (review : String) (rating : ℤ) (review_id : Option String)
    (error_msg : String) (e : ℚ) (n : String) :
    (fallback_analysis review rating review_id error_msg e n).sentiment
      = (if final_score_of review rating > 1/5 then "Positive"
         else if final_score_of review rating < -(1/5) then "Negative"
         else "Neutral") := rfl

/-- C6 counterexample: the fallback produces only 2 analysis reasons on
the review "bagus baik" with rating 3 — it classifies Positive with a
rating below 4, so the rating-confirmation reason is omitted, refuting
the at-least-3 guarantee. -/
theorem claim_C6_counterexample :
    (fallback_analysis "bagus baik" 3 none "" 0 "T").analysis_reasons.length = 2
    ∧ ¬(3 ≤ (fallback_analysis "bagus baik" 3 none "" 0 "T").analysis_reasons.length)
    ∧ (fallback_analysis "bagus baik" 3 none "" 0 "T").sentiment = "Positive" := by
  have h1 : presenceCount POS_STRONG (pyLower "bagus baik") = 0 := by decide
  have h2 : presenceCount POS_MEDIUM (pyLower "bagus baik") = 2 := by decide
  have h3 : presenceCount POS_WEAK (pyLower "bagus baik") = 0 := by decide
  have h4 : presenceCount NEG_STRONG (pyLower "bagus baik") = 0 := by decide
  have h5 : presenceCount NEG_MEDIUM (pyLower "bagus baik") = 0 := by decide
  have h6 : presenceCount NEG_WEAK (pyLower "bagus baik") = 0 := by decide
  have hpos : pos_score_of (pyLower "bagus baik") = 2/5 := by
    rw [pos_score_of, h1, h2, h3]; norm_num
  have hneg : neg_score_of (pyLower "bagus baik") = 0 := by
    rw [neg_score_of, h4, h5, h6]; norm_num
  have hfs : final_score_of "bagus baik" 3 = 7/25 := by
    rw [final_score_of, hpos, hneg]; norm_num
  have hgt : final_score_of "bagus baik" 3 > 1/5 := by rw [hfs]; norm_num
  have hlen := fallback_reasons_len "bagus baik" 3 none "" 0 "T"
  rw [if_pos hgt, if_neg (by norm_num : ¬((4 : ℤ) ≤ 3))] at hlen
  have hsent := fallback_sentiment_eq "bagus baik" 3 none "" 0 "T"
  rw [if_pos hgt] at hsent
  exact ⟨hlen, by omega, hsent⟩

/-- C6 amended: the fallback emits exactly 3 reasons for Neutral
results, for Positive results with rating at least 4 and for Negative
results with rating at most 2, and exactly 2 reasons otherwise (so
always at least 2, but not always 3); the remote path passes the model's
`analysis_reasons` list through unvalidated. -/
theorem claim_C6_reasons_lengths (review : String) (rating : ℤ) (review_id : Option String)
    (error_msg : String) (e : ℚ) (n : String) :
    2 ≤ (fallback_analysis review rating review_id error_msg e n).analysis_reasons.length
    ∧ (fallback_analysis review rating review_id error_msg e n).analysis_reasons.length
        = (if (fallback_analysis review rating review_id error_msg e n).sentiment = "Positive"
           then (if 4 ≤ rating then 3 else 2)
           else if (fallback_analysis review rating review_id error_msg e n).sentiment = "Negative"
           then (if rating ≤ 2 then 3 else 2)
           else 3)
    ∧ (∀ (mj : ModelJson) (rn ra : String) (g : Bool) (e1 : ℚ) (n1 : String)
          (e2 : ℚ) (n2 : String),
        (analyze_with_github (Except.ok mj) review rating review_id rn ra g
            e1 n1 e2 n2).analysis_reasons
          = mj.analysis_reasons) := by
  have hlen := fallback_reasons_len review rating review_id error_msg e n
  have hsent := fallback_sentiment_eq review rating review_id error_msg e n
  refine ⟨?_, ?_, fun _ _ _ _ _ _ _ _ => rfl⟩
  · rw [hlen]; split_ifs <;> norm_num
  · rw [hlen, hsent]
    by_cases hp : final_score_of review rating > 1/5
    · simp only [if_pos hp]
      simp
    · simp only [if_neg hp]
      by_cases hn : final_score_of review rating < -(1/5)
      · simp only [if_pos hn]
        simp
      · simp only [if_neg hn]
        simp

/-- C8 counterexample: two calls of the fallback with identical
`(review_text, rating)` made at different wall-clock instants return
results that are not identical in all fields — the `timestamp` field
differs, so the full result dictionaries differ. -/
theorem claim_C8_counterexample :
    (fallback_analysis "x" 3 none "" 0 "2024-01-01T00:00:00").timestamp
      ≠ (fallback_analysis "x" 3 none "" 1 "2024-01-01T00:00:01").timestamp
    ∧ fallback_analysis "x" 3 none "" 0 "2024-01-01T00:00:00"
      ≠ fallback_analysis "x" 3 none "" 1 "2024-01-01T00:00:01" := by
  have ht : (fallback_analysis "x" 3 none "" 0 "2024-01-01T00:00:00").timestamp
      ≠ (fallback_analysis "x" 3 none "" 1 "2024-01-01T00:00:01").timestamp := by
    show ("2024-01-01T00:00:00" : String) ≠ "2024-01-01T00:00:01"
    decide
  exact ⟨ht, fun hcontra => ht (congrArg SentimentResult.timestamp hcontra)⟩

/-- C8 amended: the fallback is deterministic in every field that does
not derive from the wall clock — for the same `(review_text, rating)`
(and id and error message), two calls agree on id, texts, rating,
sentiment, score, themes, reasons, suggestions, source, note and the
orchestrator flags; only `processing_time_ms` and `timestamp` depend on
the clock inputs. -/
theorem claim_C8_determinism_modulo_clock (review : String) (rating : ℤ)
    (review_id : Option String) (error_msg : String)
    (e1 e2 : ℚ) (n1 n2 : String) :
    (fallback_analysis review rating review_id error_msg e1 n1).id
      = (fallback_analysis review rating review_id error_msg e2 n2).id
    ∧ (fallback_analysis review rating review_id error_msg e1 n1).review_text
      = (fallback_analysis review rating review_id error_msg e2 n2).review_text
    ∧ (fallback_analysis review rating review_id error_msg e1 n1).rating
      = (fallback_analysis review rating review_id error_msg e2 n2).rating
    ∧ (fallback_analysis review rating review_id error_msg e1 n1).reviewer_name
      = (fallback_analysis review rating review_id error_msg e2 n2).reviewer_name
    ∧ (fallback_analysis review rating review_id error_msg e1 n1).review_at
      = (fallback_analysis review rating review_id error_msg e2 n2).review_at
    ∧ (fallback_analysis review rating review_id error_msg e1 n1).sentiment
      = (fallback_analysis review rating review_id error_msg e2 n2).sentiment
    ∧ (fallback_analysis review rating review_id error_msg e1 n1).sentiment_score
      = (fallback_analysis review rating review_id error_msg e2 n2).sentiment_score
    ∧ (fallback_analysis review rating review_id error_msg e1 n1).themes
      = (fallback_analysis review rating review_id error_msg e2 n2).themes
    ∧ (fallback_analysis review rating review_id error_msg e1 n1).analysis_reasons
      = (fallback_analysis review rating review_id error_msg e2 n2).analysis_reasons
    ∧ (fallback_analysis review rating review_id error_msg e1 n1).ai_suggestions
      = (fallback_analysis review rating review_id error_msg e2 n2).ai_suggestions
    ∧ (fallback_analysis review rating review_id error_msg e1 n1).source
      = (fallback_analysis review rating review_id error_msg e2 n2).source
    ∧ (fallback_analysis review rating review_id error_msg e1 n1).note
      = (fallback_analysis review rating review_id error_msg e2 n2).note
    ∧ (fallback_analysis review rating review_id error_msg e1 n1).is_google
      = (fallback_analysis review rating review_id error_msg e2 n2).is_google
    ∧ (fallback_analysis review rating review_id error_msg e1 n1).from_cache
      = (fallback_analysis review rating review_id error_msg e2 n2).from_cache
    ∧ (fallback_analysis review rating review_id error_msg e1 n1).saved_to_db
      = (fallback_analysis review rating review_id error_msg e2 n2).saved_to_db :=
  ⟨rfl, rfl, rfl, rfl, rfl, rfl, rfl, rfl, rfl, rfl, rfl, rfl, rfl, rfl, rfl⟩

/-- C2: the remote analysis path is total by construction (it returns a
`SentimentResult` for every abstracted remote outcome), and on every
failure — no configured client, network error, malformed JSON, missing
field, all modelled as `Except.error msg` — it returns exactly the
fallback path's result for the same review, with the triggering error
message attached as the note. -/
theorem claim_C2_remote_path_total (remote : Except String ModelJson) (review : String)
    (rating : ℤ) (review_id : Option String) (reviewer_name review_at : String)
    (is_google : Bool) (elapsed_ms : ℚ) (now_iso : String) (fb_e : ℚ) (fb_n : String)
    (msg : String) :
    (remote = Except.error msg →
      analyze_with_github remote review rating review_id reviewer_name review_at is_google
          elapsed_ms now_iso fb_e fb_n
        = fallback_analysis review rating review_id msg fb_e fb_n)
    ∧ (msg ≠ "" →
      (fallback_analysis review rating review_id msg fb_e fb_n).note
        = some ("Fallback used: " ++ msg)) := by
  constructor
  · rintro rfl
    rfl
  · intro hne
    have hnote : (fallback_analysis review rating review_id msg fb_e fb_n).note
        = some (if msg = "" then "Rule-based analysis" else "Fallback used: " ++ msg) := rfl
    rw [hnote, if_neg hne]

/-- C2 witness: a concrete failing remote call falls through to the
fallback with the error message in the note. -/
theorem claim_C2_witness :
    ("boom" : String) ≠ ""
    ∧ analyze_with_github (Except.error "boom") "ok" 5 none "" "" false 0 "t" 0 "u"
      = fallback_analysis "ok" 5 none "boom" 0 "u"
    ∧ (fallback_analysis "ok" 5 none "boom" 0 "u").note = some "Fallback used: boom" := by
  refine ⟨by decide, ?_, ?_⟩
  · exact (claim_C2_remote_path_total (Except.error "boom") "ok" 5 none "" "" false
      0 "t" 0 "u" "boom").1 rfl
  · exact (claim_C2_remote_path_total (Except.error "boom") "ok" 5 none "" "" false
      0 "t" 0 "u" "boom").2 (by decide)

lemma stepItem_shape (db : AnalysisDB) (force : Bool) (idx : ℕ) (rev : BatchReview) :
    stepItem db force idx rev = (none, none, none)
    ∨ (∃ a b, stepItem db force idx rev = (some a, some b, none))
    ∨ (∃ c, stepItem db force idx rev = (none, none, some c)) := by
  by_cases h1 : rev.full_review = ""
  · left
    simp [stepItem, h1]
  · by_cases h2 : (!force && is_analyzed db (rev.id.getD (defaultId idx)) rev.full_review) = true
    · cases hget : get_analysis db (rev.id.getD (defaultId idx)) with
      | some ex =>
        right; left
        refine ⟨{ ex with from_cache := some true },
          ⟨rev.id.getD (defaultId idx), "already_analyzed"⟩, ?_⟩
        simp [stepItem, h1, h2, hget]
      | none =>
        right; right
        refine ⟨⟨rev.full_review, rev.rating.getD 3, rev.id.getD (defaultId idx),
          rev.reviewer_name, rev.review_date⟩, ?_⟩
        simp [stepItem, h1, h2, hget]
    · right; right
      refine ⟨⟨rev.full_review, rev.rating.getD 3, rev.id.getD (defaultId idx),
        rev.reviewer_name, rev.review_date⟩, ?_⟩
      simp [stepItem, h1, h2]

lemma partitionLoop_closed (db : AnalysisDB) (force : Bool) (l : List (ℕ × BatchReview)) :
    partitionLoop db force l
      = (l.filterMap (fun p => (stepItem db force p.1 p.2).1),
         l.filterMap (fun p => (stepItem db force p.1 p.2).2.1),
         l.filterMap (fun p => (stepItem db force p.1 p.2).2.2)) := by
  induction l with
  | nil => simp [partitionLoop]
  | cons p rest ih =>
    obtain ⟨idx, rev⟩ := p
    rcases hs : stepItem db force idx rev with ⟨r, s, t⟩
    cases r <;> cases s <;> cases t <;>
      simp_all [partitionLoop, List.filterMap_cons]

lemma partitionLoop_hits_eq (db : AnalysisDB) (force : Bool) :
    ∀ l : List (ℕ × BatchReview),
    ((partitionLoop db force l).1).length = ((partitionLoop db force l).2.1).length := by
  intro l
  induction l with
  | nil => simp [partitionLoop]
  | cons p rest ih =>
    obtain ⟨idx, rev⟩ := p
    rcases stepItem_shape db force idx rev with h | ⟨a, b, h⟩ | ⟨c, h⟩ <;>
      simp [partitionLoop, h, ih]

lemma analyzeLoop_lengths (eng : ℕ → Except String SentimentResult)
    (save : SentimentResult → Bool) (parallel : Bool) (ta : List ToAnalyze) :
    ∀ i : ℕ,
    ((analyzeLoop eng save parallel i ta).1).length = engineOkCount eng i ta
    ∧ ((analyzeLoop eng save parallel i ta).2).length = engineErrCount eng i ta := by
  induction ta with
  | nil => intro i; simp [analyzeLoop, engineOkCount, engineErrCount]
  | cons cur rest ih =>
    intro i
    cases he : eng i with
    | ok res =>
      simp [analyzeLoop, engineOkCount, engineErrCount, he, (ih (i + 1)).1, (ih (i + 1)).2]
      omega
    | error e =>
      simp [analyzeLoop, engineOkCount, engineErrCount, he, (ih (i + 1)).1, (ih (i + 1)).2]
      omega

lemma engineCounts_total (eng : ℕ → Except String SentimentResult) (ta : List ToAnalyze) :
    ∀ i : ℕ, engineOkCount eng i ta + engineErrCount eng i ta = ta.length := by
  induction ta with
  | nil => intro i; simp [engineOkCount, engineErrCount]
  | cons cur rest ih =>
    intro i
    have hih := ih (i + 1)
    cases he : eng i <;> simp [engineOkCount, engineErrCount, he] <;> omega

/-- C4: for every batch, the outcome aggregates are consistent:
`total_reviews` is the input count before the empty-text discard;
`from_cache` is the number of cache hits (which equals both the skip
list length and the number of stored records returned from cache);
`newly_analyzed` is the number of dispatched analyses; `processed` is
the number of cache hits plus the number of successfully (newly)
analyzed reviews; `failed` is the number of per-item errors; and the
reconciliation `processed + failed = from_cache + newly_analyzed`
holds. -/
theorem claim_C4_batch_aggregates (db : AnalysisDB)
    (eng : ℕ → Except String SentimentResult) (save : SentimentResult → Bool)
    (reviews : List BatchReview) (parallel force_reanalyze : Bool) :
    (smart_batch_analyze db eng save reviews parallel force_reanalyze).total_reviews
        = reviews.length
    ∧ (smart_batch_analyze db eng save reviews parallel force_reanalyze).from_cache
        = ((partitionLoop db force_reanalyze reviews.enum).2.1).length
    ∧ (smart_batch_analyze db eng save reviews parallel force_reanalyze).from_cache
        = ((partitionLoop db force_reanalyze reviews.enum).1).length
    ∧ (smart_batch_analyze db eng save reviews parallel force_reanalyze).newly_analyzed
        = ((partitionLoop db force_reanalyze reviews.enum).2.2).length
    ∧ (smart_batch_analyze db eng save reviews parallel force_reanalyze).processed
        = (smart_batch_analyze db eng save reviews parallel force_reanalyze).from_cache
          + engineOkCount eng 0 ((partitionLoop db force_reanalyze reviews.enum).2.2)
    ∧ (smart_batch_analyze db eng save reviews parallel force_reanalyze).failed
        = engineErrCount eng 0 ((partitionLoop db force_reanalyze reviews.enum).2.2)
    ∧ (smart_batch_analyze db eng save reviews parallel force_reanalyze).processed
          + (smart_batch_analyze db eng save reviews parallel force_reanalyze).failed
        = (smart_batch_analyze db eng save reviews parallel force_reanalyze).from_cache
          + (smart_batch_analyze db eng save reviews parallel force_reanalyze).newly_analyzed := by
  rcases hpart : partitionLoop db force_reanalyze reviews.enum with ⟨cached, skipped, to_analyze⟩
  rcases hana : analyzeLoop eng save parallel 0 to_analyze with ⟨new_results, errors⟩
  have hhits := partitionLoop_hits_eq db force_reanalyze reviews.enum
  rw [hpart] at hhits
  simp only at hhits
  have hlen := analyzeLoop_lengths eng save parallel to_analyze 0
  rw [hana] at hlen
  simp only at hlen
  have htot := engineCounts_total eng to_analyze 0
  have hout : smart_batch_analyze db eng save reviews parallel force_reanalyze
      = ⟨reviews.length, (cached ++ new_results).length, to_analyze.length, skipped.length,
         errors.length, cached ++ new_results, skipped, errors⟩ := by
    simp [smart_batch_analyze, hpart, hana]
  rw [hout]
  refine ⟨rfl, rfl, hhits.symm, rfl, ?_, hlen.2, ?_⟩
  · simp only [List.length_append, hlen.1]
    omega
  · simp only [List.length_append, hlen.1, hlen.2]
    omega

/-- C1: cache-hit exactness with `force_reanalyze = false`. The dispatch
list is exactly the per-item decisions over the enumerated input; for a
review with non-empty text whose id has a stored record: when the stored
`review_text` equals the incoming text exactly, the item is a cache hit —
the stored record marked `from_cache = true` is included in the results,
a skip entry is recorded, and the item contributes nothing to the
dispatch list (the Sentiment Engine is not invoked for it); when the
stored text differs, the item is not a cache hit and its dispatch record
enters the to-analyze list (it proceeds to re-analysis). -/
theorem claim_C1_cache_hit_exactness (db : AnalysisDB)
    (eng : ℕ → Except String SentimentResult) (save : SentimentResult → Bool)
    (reviews : List BatchReview) (parallel : Bool) (idx : ℕ) (rev : BatchReview)
    (rec : SentimentResult)
    (hmem : (idx, rev) ∈ reviews.enum)
    (htext : rev.full_review ≠ "")
    (hstored : get_analysis db (rev.id.getD (defaultId idx)) = some rec) :
    ((partitionLoop db false reviews.enum).2.2
        = reviews.enum.filterMap (fun p => (stepItem db false p.1 p.2).2.2))
    ∧ (rec.review_text = rev.full_review →
        stepItem db false idx rev
          = (some { rec with from_cache := some true },
             some ⟨rev.id.getD (defaultId idx), "already_analyzed"⟩, none)
        ∧ { rec with from_cache := some true }
            ∈ (smart_batch_analyze db eng save reviews parallel false).results
        ∧ (⟨rev.id.getD (defaultId idx), "already_analyzed"⟩ : SkipEntry)
            ∈ (smart_batch_analyze db eng save reviews parallel false).skipped)
    ∧ (rec.review_text ≠ rev.full_review →
        stepItem db false idx rev
          = (none, none, some ⟨rev.full_review, rev.rating.getD 3,
              rev.id.getD (defaultId idx), rev.reviewer_name, rev.review_date⟩)
        ∧ (⟨rev.full_review, rev.rating.getD 3, rev.id.getD (defaultId idx),
            rev.reviewer_name, rev.review_date⟩ : ToAnalyze)
            ∈ (partitionLoop db false reviews.enum).2.2) := by
  refine ⟨by rw [partitionLoop_closed], ?_, ?_⟩
  · intro heq
    have hana : is_analyzed db (rev.id.getD (defaultId idx)) rev.full_review = true := by
      simp [is_analyzed, hstored, heq]
    have hstep : stepItem db false idx rev
        = (some { rec with from_cache := some true },
           some ⟨rev.id.getD (defaultId idx), "already_analyzed"⟩, none) := by
      simp [stepItem, htext, hana, hstored]
    refine ⟨hstep, ?_, ?_⟩
    · have hres : (smart_batch_analyze db eng save reviews parallel false).results
          = (partitionLoop db false reviews.enum).1
            ++ (analyzeLoop eng save parallel 0 ((partitionLoop db false reviews.enum).2.2)).1 := rfl
      rw [hres, partitionLoop_closed]
      refine List.mem_append_left _ ?_
      simp only
      exact List.mem_filterMap.mpr ⟨(idx, rev), hmem, by rw [hstep]⟩
    · have hsk : (smart_batch_analyze db eng save reviews parallel false).skipped
          = (partitionLoop db false reviews.enum).2.1 := rfl
      rw [hsk, partitionLoop_closed]
      simp only
      exact List.mem_filterMap.mpr ⟨(idx, rev), hmem, by rw [hstep]⟩
  · intro hne
    have hana : is_analyzed db (rev.id.getD (defaultId idx)) rev.full_review = false := by
      simp [is_analyzed, hstored, hne]
    have hstep : stepItem db false idx rev
        = (none, none, some ⟨rev.full_review, rev.rating.getD 3,
            rev.id.getD (defaultId idx), rev.reviewer_name, rev.review_date⟩) := by
      simp [stepItem, htext, hana]
    refine ⟨hstep, ?_⟩
    rw [partitionLoop_closed]
    simp only
    exact List.mem_filterMap.mpr ⟨(idx, rev), hmem, by rw [hstep]⟩

/-- Concrete stored analysis record used to witness the cache-hit
behaviour, mirroring the spec's `R1` / "Great service" example. -/
def recGreat : SentimentResult :=
  { id := some "R1"
    review_text := "Great service"
    rating := 5
    reviewer_name := none
    review_at := none
    sentiment := "Positive"
    sentiment_score := 1
    themes := []
    analysis_reasons := []
    ai_suggestions := []
    processing_time_ms := 0
    timestamp := "t"
    source := "github_models"
    note := none
    is_google := none
    from_cache := none
    saved_to_db := none }

/-- Concrete incoming batch review matching `recGreat` by id and
text. -/
def revGreat : BatchReview :=
  { id := some "R1"
    full_review := "Great service"
    rating := some 5
    reviewer_name := none
    review_date := none }

/-- C1 witness: with a stored record for `R1` with text "Great service"
and the same id and text incoming, the orchestrator takes the cache-hit
branch — the marked record is in the results, the skip entry is
recorded, and the per-item decision dispatches nothing to the engine. -/
theorem claim_C1_witness :
    recGreat.review_text = "Great service"
    ∧ stepItem [("R1", recGreat)] false 0 revGreat
      = (some { recGreat with from_cache := some true },
         some ⟨"R1", "already_analyzed"⟩, none)
    ∧ { recGreat with from_cache := some true }
        ∈ (smart_batch_analyze [("R1", recGreat)] (fun _ => Except.error "e")
            (fun _ => false) [revGreat] true false).results
    ∧ (⟨"R1", "already_analyzed"⟩ : SkipEntry)
        ∈ (smart_batch_analyze [("R1", recGreat)] (fun _ => Except.error "e")
            (fun _ => false) [revGreat] true false).skipped := by
  have h := (claim_C1_cache_hit_exactness [("R1", recGreat)] (fun _ => Except.error "e")
    (fun _ => false) [revGreat] true 0 revGreat recGreat (by decide) (by decide)
    (by decide)).2.1 rfl
  exact ⟨rfl, h.1, h.2.1, h.2.2⟩
